import Mathlib

/-!
Shallow embedding of the `DbManager` core of the `launch` repository
(`dbmanager.h` / its implementation file).

The registry store (SQLite table `applications(path TEXT PRIMARY KEY)`) is
modelled as a `List String` in backend order.  A prepared statement that the
external SQL engine may fail to execute is modelled, where a claim reasons
about such a failure, by an explicit `Bool` oracle argument (`execOk`,
`delOk`); `true` means the statement executed.  Elsewhere statements are
assumed to execute (the normal-operation model).

A `QString` is modelled as `Option String`: `none` is the null `QString()`
(as produced by `return QString();`), `some s` a non-null string with
content `s`; `QString::isEmpty` holds for both `none` and `some ""`.

`QString` primitives (`endsWith`, `startsWith`, `trimmed`, `remove(0, n)`)
are modelled by structurally recursive functions over the character list of
the string, so that every definition evaluates on concrete inputs.
-/

/-- Model of `QString::endsWith` (and of the SQL pattern `LIKE '%.desktop'`
for the fixed pattern used by the source): the last characters of `s` are
exactly `suffix`. -/
def endsWithStr (s suffix : String) : Bool :=
  decide (s.data.drop (s.data.length - suffix.data.length) = suffix.data)

/-- Model of `QString::startsWith`: the first characters of `s` are exactly
`pre`. -/
def startsWithStr (s pre : String) : Bool :=
  decide (s.data.take pre.data.length = pre.data)

/-- Model of `QString::remove(0, n)` (as used on a line that starts with the
removed prefix): drop the first `n` characters. -/
def dropStr (s : String) (n : Nat) : String :=
  ⟨s.data.drop n⟩

/-- Model of `QString::trimmed`: remove leading and trailing whitespace. -/
def trimStr (s : String) : String :=
  ⟨(((s.data.dropWhile Char.isWhitespace).reverse.dropWhile
      Char.isWhitespace).reverse)⟩

/-- Model of `DbManager::_createTable`.  The state is whether the table
`applications` already exists; `CREATE TABLE` fails exactly when it does.
Result: (returned `success` flag, whether the table exists afterwards).
In the source, `success` is initialised to `false`, reassigned to `false`
when `query.exec()` fails, and never set to `true`. -/
def _createTable (tableAlreadyExists : Bool) : Bool × Bool :=
  let success := false
  let success := if tableAlreadyExists then false else success
  (success, true)

/-- Model of `DbManager::applicationExists`.  `execOk` is whether the
prepared `SELECT path FROM applications WHERE path = (:path)` executes;
when it fails the source logs and returns the initial `exists = false`.
When it executes, `checkQuery.next()` finds a row iff `path` is in the
table. -/
def applicationExists (execOk : Bool) (db : List String) (path : String) : Bool :=
  if execOk then decide (path ∈ db) else false

/-- Model of `DbManager::_addApplication`.  An empty path is rejected before
any query.  The `INSERT INTO applications (path) VALUES (:path)` violates the
`PRIMARY KEY` constraint, and so fails to execute, exactly when `path` is
already a row; otherwise it appends the row in backend order. -/
def _addApplication (db : List String) (path : String) : Bool × List String :=
  if path = "" then (false, db)
  else if path ∈ db then (false, db)
  else (true, db ++ [path])

/-- Model of `DbManager::_removeApplication`.  The source first runs
`applicationExists(path)` (its `SELECT` assumed to execute) and only then the
`DELETE FROM applications WHERE path = (:path)`; `delOk` is whether that
delete statement executes.  A failed delete changes no rows. -/
def _removeApplication (delOk : Bool) (db : List String) (path : String) :
    Bool × List String :=
  if applicationExists true db path then
    if delOk then (true, db.filter (fun p => p ≠ path)) else (false, db)
  else (false, db)

/-- Model of `DbManager::removeAllApplications`: `DELETE FROM applications`
deletes every row. -/
def removeAllApplications (db : List String) : Bool × List String :=
  (true, [])

/-- Model of `DbManager::_numberOfApplications`: `SELECT COUNT(*)`. -/
def _numberOfApplications (db : List String) : Nat :=
  db.length

/-- ASCII case folding as SQLite's default `LIKE` applies it: the code
points of `'A'`–`'Z'` (65–90) fold to those of `'a'`–`'z'`; every other
character compares by its own code point. -/
def asciiLowerNat (c : Char) : Nat :=
  if 65 ≤ c.toNat ∧ c.toNat ≤ 90 then c.toNat + 32 else c.toNat

/-- Model of the SQLite pattern match `s LIKE '%' || pat` for a pattern
`pat` free of `LIKE` metacharacters: the last characters of `s` equal `pat`
up to ASCII case (SQLite's default `LIKE` is case-insensitive for ASCII,
and the QSQLITE driver leaves that default in place). -/
def likeCI (s pat : String) : Bool :=
  decide ((s.data.drop (s.data.length - pat.data.length)).map asciiLowerNat
    = pat.data.map asciiLowerNat)

/-- Model of `DbManager::allApplications`: first the rows of
`SELECT * FROM applications WHERE path NOT LIKE '%.desktop'`, then those of
`SELECT * FROM applications WHERE path LIKE '%.desktop'`, each pass in
backend order; the `LIKE` comparison is ASCII case-insensitive. -/
def allApplications (db : List String) : List String :=
  db.filter (fun p => !(likeCI p ".desktop"))
    ++ db.filter (fun p => likeCI p ".desktop")

/-- Claim C1 counterexample: the row `"/a/X.DESKTOP"` does not end in
`".desktop"`, so the claim places it in the first pass, before the other
non-`".desktop"` row in backend order — predicting
`["/a/X.DESKTOP", "/a/z"]`.  The program's case-insensitive `LIKE` puts it
in the second pass instead: `allApplications` returns
`["/a/z", "/a/X.DESKTOP"]`. -/
theorem allApplications_case_refutation :
    endsWithStr "/a/X.DESKTOP" ".desktop" = false ∧
    endsWithStr "/a/z" ".desktop" = false ∧
    allApplications ["/a/X.DESKTOP", "/a/z"] ≠ ["/a/X.DESKTOP", "/a/z"] ∧
    allApplications ["/a/X.DESKTOP", "/a/z"] = ["/a/z", "/a/X.DESKTOP"] :=
  ⟨by decide, by decide, by decide, by decide⟩

/-- Claim C1, amended: `allApplications()` returns every registered row in a
two-pass order partitioned by the ASCII case-insensitive suffix test of
`LIKE '%.desktop'` — every path not matching it first, in backend order,
then every path matching it, in backend order.  Paths ending in the literal
`".desktop"` all fall in the second pass, but so do ASCII uppercase
variants such as `".DESKTOP"`.  On the store
`{"/a/x.desktop", "/a/y.app", "/a/z"}` the boundary still places
`"/a/y.app"` and `"/a/z"` before `"/a/x.desktop"`. -/
theorem allApplications_two_pass (db : List String) :
    (allApplications db).Perm db ∧
    (∃ pre post, allApplications db = pre ++ post ∧
      pre = db.filter (fun p => !(likeCI p ".desktop")) ∧
      post = db.filter (fun p => likeCI p ".desktop") ∧
      (∀ p ∈ pre, likeCI p ".desktop" = false) ∧
      (∀ p ∈ post, likeCI p ".desktop" = true)) ∧
    allApplications ["/a/x.desktop", "/a/y.app", "/a/z"]
      = ["/a/y.app", "/a/z", "/a/x.desktop"] := by
  refine ⟨?_, ⟨_, _, rfl, rfl, rfl, ?_, ?_⟩, by decide⟩
  · have h := List.filter_append_perm (fun p : String => !(likeCI p ".desktop")) db
    unfold allApplications
    refine List.Perm.trans (List.Perm.append_left _ ?_) h
    have hfun : (fun p : String => likeCI p ".desktop")
        = (fun p : String => !(!(likeCI p ".desktop"))) := by
      funext p; simp
    rw [hfun]
  · intro p hp
    have := (List.mem_filter.mp hp).2
    simpa using this
  · intro p hp
    exact (List.mem_filter.mp hp).2

/-- Claim C3 counterexample: when the table does not pre-exist, so that the
`CREATE TABLE` statement executes and the table is actually created,
`_createTable` still returns `false`, not `true` as claimed. -/
theorem createTable_created_returns_false : (_createTable false).1 = false := rfl

/-- Claim C3, amended: `_createTable` returns `false` both when it actually
creates the backing table and when the table pre-exists — the returned flag
is constantly `false` and never reports a performed creation. -/
theorem createTable_always_false (tableAlreadyExists : Bool) :
    (_createTable tableAlreadyExists).1 = false := by
  cases tableAlreadyExists <;> rfl

/-- Claim C9: for every path and every prior store state, removing the path
and then querying its existence returns `false`, provided the delete
statement executes successfully when it runs (it runs exactly when the
preceding existence check finds the row); this holds whether or not the
final existence query itself executes. -/
theorem remove_then_not_exists (db : List String) (path : String)
    (delOk finalOk : Bool) (hdel : path ∈ db → delOk = true) :
    applicationExists finalOk ((_removeApplication delOk db path).2) path = false := by
  by_cases hmem : path ∈ db
  · have hd := hdel hmem
    subst hd
    have h1 : _removeApplication true db path
        = (true, db.filter (fun p => p ≠ path)) := by
      simp [_removeApplication, applicationExists, hmem]
    rw [h1]
    have h2 : path ∉ db.filter (fun p => p ≠ path) := by
      intro hc
      have := (List.mem_filter.mp hc).2
      simp at this
    cases finalOk
    · rfl
    · simp [applicationExists, h2]
  · have h0 : applicationExists true db path = false := by
      simp [applicationExists, hmem]
    have h1 : _removeApplication delOk db path = (false, db) := by
      simp [_removeApplication, h0]
    rw [h1]
    cases finalOk
    · rfl
    · simp [applicationExists, hmem]

/-- Claim C9 witness. -/
theorem remove_then_not_exists_witness :
    ("/a/p" ∈ ["/a/p"] → true = true) ∧
    applicationExists true ((_removeApplication true ["/a/p"] "/a/p").2) "/a/p" = false :=
  ⟨fun _ => rfl, remove_then_not_exists ["/a/p"] "/a/p" true true (fun _ => rfl)⟩

/-- Claim C10: when the underlying `SELECT` fails to execute,
`applicationExists` returns `false` — the very value it returns, on a
successful query, for a path that is absent; the two cases yield equal
results at this interface. -/
theorem exists_query_failure_reads_as_absent (db db' : List String)
    (path path' : String) (h : path' ∉ db') :
    applicationExists false db path = false ∧
    applicationExists false db path = applicationExists true db' path' := by
  constructor
  · rfl
  · simp [applicationExists, h]

/-- Claim C10 witness: the query-failure result on a store that does contain
the path coincides with the successful-query result on a store that does
not. -/
theorem exists_query_failure_reads_as_absent_witness :
    ("/a/p" ∉ ([] : List String)) ∧
    (applicationExists false ["/a/p"] "/a/p" = false ∧
      applicationExists false ["/a/p"] "/a/p" = applicationExists true [] "/a/p") :=
  ⟨by decide, exists_query_failure_reads_as_absent ["/a/p"] [] "/a/p" "/a/p" (by decide)⟩

/-!
Capability resolver: `DbManager::getCanOpenFromFile` and
`DbManager::handleApplication`.  Filesystem, canonicalization and the
external extended-attribute store are collaborators, modelled by `Fs`.
-/

/-- External collaborators of the resolver: `QDir(path).canonicalPath()`,
`QFileInfo::isDir` / `isFile`, text-mode file reading (`contents p = none`
models a file that cannot be opened for reading; `some text` the text-mode
stream contents), and the extended-attribute store restricted to the fixed
key `"can-open"` (`attr p = none` models `ok = false` from
`Fm::getAttributeValueQString`, i.e. no marker present). -/
structure Fs where
  canon : String → String
  isDir : String → Bool
  isFile : String → Bool
  contents : String → Option String
  attr : String → Option String

/-- Lines delivered by repeated `QTextStream::readLine` until `atEnd`:
split on `'\n'`, one final unterminated segment kept, a trailing newline
producing no extra empty line. -/
def splitNl : List Char → List String
  | [] => [""]
  | c :: rest =>
    if c = '\n' then "" :: splitNl rest
    else
      match splitNl rest with
      | [] => [⟨[c]⟩]
      | s :: tail => ⟨c :: s.data⟩ :: tail

/-- Lines of a text file as read by the `QTextStream` loop of the source. -/
def fileLines (text : String) : List String :=
  if text.data = [] then []
  else if endsWithStr text "\n" then (splitNl text.data).dropLast
  else splitNl text.data

/-- The `while (!in.atEnd())` loop of `DbManager::getCanOpenFromFile`:
`mime` starts as `""` and is overwritten with `getLine.remove(0, 9)` on
every trimmed line that starts with `"MimeType="`. -/
def scanMime (lines : List String) : String :=
  lines.foldl
    (fun mime l =>
      if startsWithStr (trimStr l) "MimeType=" then dropStr (trimStr l) 9
      else mime) ""

/-- Specification-style restatement of the mime extraction, written from the
spec's words: the value following the `"MimeType="` prefix on the LAST
trimmed line that starts with it, or `""` when no line does.  Used to state
the refinement claim C4 against `scanMime`. -/
def lastMimeSpec (lines : List String) : String :=
  match (lines.map trimStr).reverse.find? (fun l => startsWithStr l "MimeType=") with
  | none => ""
  | some l => dropStr l 9

/-- Model of `DbManager::getCanOpenFromFile`.  Returns the `QString`
modelled as `Option String` (`none` = null `QString()`). -/
def getCanOpenFromFile (fs : Fs) (canonicalPath : String) : Option String :=
  if endsWithStr canonicalPath ".app" then
    if !(fs.isFile (canonicalPath ++ "/Resources/can-open")) then none
    else
      match fs.contents (canonicalPath ++ "/Resources/can-open") with
      | none => none
      | some text => some text
  else if endsWithStr canonicalPath ".desktop" then
    if (fs.attr canonicalPath).isSome then none
    else
      some (match fs.contents canonicalPath with
            | none => ""
            | some text => scanMime (fileLines text))
  else none

/-- Accumulator-generalised form of the mime-scanning loop: the fold over
the lines equals the last matching line's extracted value, or the initial
accumulator when no trimmed line matches. -/
theorem scanMime_foldl_eq (lines : List String) (a : String) :
    lines.foldl
      (fun mime l =>
        if startsWithStr (trimStr l) "MimeType=" then dropStr (trimStr l) 9
        else mime) a
      = match (lines.map trimStr).reverse.find?
          (fun l => startsWithStr l "MimeType=") with
        | none => a
        | some l => dropStr l 9 := by
  induction lines using List.reverseRecOn generalizing a with
  | nil => rfl
  | append_singleton xs x ih =>
    rw [List.foldl_append]
    simp only [List.foldl_cons, List.foldl_nil, List.map_append,
      List.reverse_append, List.map_cons, List.map_nil, List.reverse_cons,
      List.reverse_nil, List.nil_append, List.cons_append]
    by_cases h : startsWithStr (trimStr x) "MimeType=" = true
    · rw [List.find?_cons_of_pos (p := fun l => startsWithStr l "MimeType=") _ h]
      simp [h]
    · have h' : startsWithStr (trimStr x) "MimeType=" = false := by
        simpa using h
      rw [List.find?_cons_of_neg (p := fun l => startsWithStr l "MimeType=") _
        (by simp [h'])]
      simp only [h', if_false]
      exact ih a

/-- When no trimmed line starts with `"MimeType="`, the scan yields `""`. -/
theorem scanMime_no_match (lines : List String)
    (h : ∀ l ∈ lines, startsWithStr (trimStr l) "MimeType=" = false) :
    scanMime lines = "" := by
  unfold scanMime
  rw [scanMime_foldl_eq]
  have hfind : (lines.map trimStr).reverse.find?
      (fun l => startsWithStr l "MimeType=") = none := by
    rw [List.find?_eq_none]
    intro x hx
    rw [List.mem_reverse, List.mem_map] at hx
    obtain ⟨l, hl, rfl⟩ := hx
    simp [h l hl]
  rw [hfind]

/-- The mime-scanning loop computes exactly the spec's description: the
value after `"MimeType="` on the last matching trimmed line. -/
theorem scanMime_eq_lastMimeSpec (lines : List String) :
    scanMime lines = lastMimeSpec lines := by
  unfold scanMime lastMimeSpec
  rw [scanMime_foldl_eq]

/-- Claim C4: on a `".desktop"` path with no cached marker whose file is
readable, `getCanOpenFromFile` returns exactly the value following the
literal `"MimeType="` prefix on the LAST trimmed line starting with that
prefix (earlier matches are overwritten). -/
theorem desktop_mime_last_wins (fs : Fs) (p text : String)
    (happ : endsWithStr p ".app" = false)
    (hdesk : endsWithStr p ".desktop" = true)
    (hattr : fs.attr p = none)
    (hread : fs.contents p = some text) :
    getCanOpenFromFile fs p = some (lastMimeSpec (fileLines text)) := by
  simp [getCanOpenFromFile, happ, hdesk, hattr, hread, scanMime_eq_lastMimeSpec]

/-- Concrete collaborator state for the C4 witness: a readable `.desktop`
file with two `MimeType=` lines and no cached marker. -/
def fsTwoMimeLines : Fs where
  canon := fun s => s
  isDir := fun _ => false
  isFile := fun s => decide (s = "/a/app.desktop")
  contents := fun s =>
    if s = "/a/app.desktop" then some "MimeType=text/plain;\nMimeType=image/png;\n"
    else none
  attr := fun _ => none

/-- Claim C4 witness: on the two-line file the last line wins, yielding
`"image/png;"`. -/
theorem desktop_mime_last_wins_witness :
    (endsWithStr "/a/app.desktop" ".app" = false ∧
      endsWithStr "/a/app.desktop" ".desktop" = true ∧
      fsTwoMimeLines.attr "/a/app.desktop" = none ∧
      fsTwoMimeLines.contents "/a/app.desktop"
        = some "MimeType=text/plain;\nMimeType=image/png;\n") ∧
    getCanOpenFromFile fsTwoMimeLines "/a/app.desktop"
      = some (lastMimeSpec (fileLines "MimeType=text/plain;\nMimeType=image/png;\n")) ∧
    lastMimeSpec (fileLines "MimeType=text/plain;\nMimeType=image/png;\n")
      = "image/png;" :=
  ⟨⟨by decide, by decide, rfl, rfl⟩,
    desktop_mime_last_wins fsTwoMimeLines "/a/app.desktop" _
      (by decide) (by decide) rfl rfl,
    by decide⟩

/-- Claim C2: on a `".desktop"` path whose `"can-open"` marker is already in
the attribute store, `getCanOpenFromFile` returns the null string (the
"already resolved" signal), which differs from the non-null empty string
returned when the file holds no `MimeType=` value at all. -/
theorem desktop_marker_already_resolved (fs fsNo : Fs) (p q text : String)
    (happ : endsWithStr p ".app" = false)
    (hdesk : endsWithStr p ".desktop" = true)
    (hattr : (fs.attr p).isSome = true)
    (happ' : endsWithStr q ".app" = false)
    (hdesk' : endsWithStr q ".desktop" = true)
    (hattr' : fsNo.attr q = none)
    (hread : fsNo.contents q = some text)
    (hnone : ∀ l ∈ fileLines text, startsWithStr (trimStr l) "MimeType=" = false) :
    getCanOpenFromFile fs p = none ∧
    getCanOpenFromFile fsNo q = some "" ∧
    getCanOpenFromFile fs p ≠ getCanOpenFromFile fsNo q := by
  have h1 : getCanOpenFromFile fs p = none := by
    simp [getCanOpenFromFile, happ, hdesk, hattr]
  have h2 : getCanOpenFromFile fsNo q = some "" := by
    simp [getCanOpenFromFile, happ', hdesk', hattr', hread,
      scanMime_no_match _ hnone]
  refine ⟨h1, h2, ?_⟩
  rw [h1, h2]
  simp

/-- Concrete collaborator state for the C2 witness: one `.desktop` path with
the marker already cached, another readable `.desktop` file without any
`MimeType=` line. -/
def fsMarkerCached : Fs where
  canon := fun s => s
  isDir := fun _ => false
  isFile := fun s => decide (s = "/a/c.desktop" ∨ s = "/a/n.desktop")
  contents := fun s => if s = "/a/n.desktop" then some "Name=Foo\n" else none
  attr := fun s => if s = "/a/c.desktop" then some "text/plain;" else none

/-- Claim C2 witness. -/
theorem desktop_marker_already_resolved_witness :
    (endsWithStr "/a/c.desktop" ".app" = false ∧
      endsWithStr "/a/c.desktop" ".desktop" = true ∧
      (fsMarkerCached.attr "/a/c.desktop").isSome = true ∧
      endsWithStr "/a/n.desktop" ".app" = false ∧
      endsWithStr "/a/n.desktop" ".desktop" = true ∧
      fsMarkerCached.attr "/a/n.desktop" = none ∧
      fsMarkerCached.contents "/a/n.desktop" = some "Name=Foo\n" ∧
      (∀ l ∈ fileLines "Name=Foo\n",
        startsWithStr (trimStr l) "MimeType=" = false)) ∧
    (getCanOpenFromFile fsMarkerCached "/a/c.desktop" = none ∧
      getCanOpenFromFile fsMarkerCached "/a/n.desktop" = some "" ∧
      getCanOpenFromFile fsMarkerCached "/a/c.desktop"
        ≠ getCanOpenFromFile fsMarkerCached "/a/n.desktop") :=
  ⟨⟨by decide, by decide, rfl, by decide, by decide, by decide, by decide,
      by decide⟩,
    desktop_marker_already_resolved fsMarkerCached fsMarkerCached
      "/a/c.desktop" "/a/n.desktop" "Name=Foo\n"
      (by decide) (by decide) rfl (by decide) (by decide) (by decide)
      (by decide) (by decide)⟩

/-- Claim C8: on an `".app"` bundle whose `Resources/can-open` sidecar
exists and is readable, `getCanOpenFromFile` returns the file's full text
verbatim; when the sidecar is absent, or present but unreadable, it returns
the null string (no capability). -/
theorem app_sidecar_verbatim (fs fsA fsU : Fs) (p q r text : String)
    (hp : endsWithStr p ".app" = true)
    (hfile : fs.isFile (p ++ "/Resources/can-open") = true)
    (hread : fs.contents (p ++ "/Resources/can-open") = some text)
    (hq : endsWithStr q ".app" = true)
    (habsent : fsA.isFile (q ++ "/Resources/can-open") = false)
    (hr : endsWithStr r ".app" = true)
    (hfileU : fsU.isFile (r ++ "/Resources/can-open") = true)
    (hunread : fsU.contents (r ++ "/Resources/can-open") = none) :
    getCanOpenFromFile fs p = some text ∧
    getCanOpenFromFile fsA q = none ∧
    getCanOpenFromFile fsU r = none := by
  refine ⟨?_, ?_, ?_⟩
  · simp [getCanOpenFromFile, hp, hfile, hread]
  · simp [getCanOpenFromFile, hq, habsent]
  · simp [getCanOpenFromFile, hr, hfileU, hunread]

/-- Concrete collaborator state for the C8 witness: a bundle with a readable
sidecar containing `"text/plain\n"`, a bundle with no sidecar, and a bundle
whose sidecar exists but cannot be opened. -/
def fsBundles : Fs where
  canon := fun s => s
  isDir := fun s => decide (s = "/b/ok.app" ∨ s = "/b/none.app" ∨ s = "/b/bad.app")
  isFile := fun s =>
    decide (s = "/b/ok.app/Resources/can-open" ∨ s = "/b/bad.app/Resources/can-open")
  contents := fun s =>
    if s = "/b/ok.app/Resources/can-open" then some "text/plain\n" else none
  attr := fun _ => none

/-- Claim C8 witness: the sidecar contents `"text/plain\n"` come back
verbatim, untrimmed. -/
theorem app_sidecar_verbatim_witness :
    (endsWithStr "/b/ok.app" ".app" = true ∧
      fsBundles.isFile ("/b/ok.app" ++ "/Resources/can-open") = true ∧
      fsBundles.contents ("/b/ok.app" ++ "/Resources/can-open")
        = some "text/plain\n" ∧
      endsWithStr "/b/none.app" ".app" = true ∧
      fsBundles.isFile ("/b/none.app" ++ "/Resources/can-open") = false ∧
      endsWithStr "/b/bad.app" ".app" = true ∧
      fsBundles.isFile ("/b/bad.app" ++ "/Resources/can-open") = true ∧
      fsBundles.contents ("/b/bad.app" ++ "/Resources/can-open") = none) ∧
    (getCanOpenFromFile fsBundles "/b/ok.app" = some "text/plain\n" ∧
      getCanOpenFromFile fsBundles "/b/none.app" = none ∧
      getCanOpenFromFile fsBundles "/b/bad.app" = none) :=
  ⟨⟨by decide, by decide, by decide, by decide, by decide, by decide,
      by decide, by decide⟩,
    app_sidecar_verbatim fsBundles fsBundles fsBundles
      "/b/ok.app" "/b/none.app" "/b/bad.app" "text/plain\n"
      (by decide) (by decide) (by decide) (by decide) (by decide)
      (by decide) (by decide) (by decide)⟩

/-!
`DbManager::handleApplication`, with its observable calls to the capability
collaborators recorded as events.
-/

/-- Side effects of one `handleApplication` invocation on the capability
collaborators: an invocation of `getCanOpenFromFile` (capability-source
read) and a call to `Fm::setAttributeValueQString` (cache write). -/
inductive Event where
  | capRead : String → Event
  | attrWrite : String → String → Event
deriving DecidableEq

/-- Whether an event is a cache write (`Fm::setAttributeValueQString`). -/
def isAttrWrite : Event → Bool
  | .attrWrite _ _ => true
  | _ => false

/-- Whether an event is a capability-source read (`getCanOpenFromFile`). -/
def isCapRead : Event → Bool
  | .capRead _ => true
  | _ => false

/-- `QString::isEmpty` on the modelled string: holds for the null string
and for the empty non-null string alike (so the source's `mime == ""`
branch is unreachable). -/
def qIsEmpty : Option String → Bool
  | none => true
  | some s => decide (s.data = [])

/-- Model of `DbManager::handleApplication`: canonicalize, remove the row
when the canonical path is neither a directory nor a file, otherwise add it,
then — only when the filesystem supports extended attributes and no
`"can-open"` marker is cached — resolve the capability source and cache a
non-empty result.  Returns the new table and the events in order. -/
def handleApplication (supportsExtattr delOk : Bool) (fs : Fs)
    (db : List String) (path : String) : List String × List Event :=
  let canonicalPath := fs.canon path
  if !(fs.isDir canonicalPath || fs.isFile canonicalPath) then
    ((_removeApplication delOk db canonicalPath).2, [])
  else
    let db1 := (_addApplication db canonicalPath).2
    if !supportsExtattr then (db1, [])
    else if (fs.attr canonicalPath).isSome then (db1, [])
    else
      let mime := getCanOpenFromFile fs canonicalPath
      if qIsEmpty mime then (db1, [Event.capRead canonicalPath])
      else (db1, [Event.capRead canonicalPath,
                  Event.attrWrite canonicalPath (mime.getD "")])

/-- A remove with an executing delete leaves no row for the path. -/
theorem removeApplication_not_mem (db : List String) (path : String) :
    path ∉ (_removeApplication true db path).2 := by
  by_cases hmem : path ∈ db
  · have h1 : _removeApplication true db path
        = (true, db.filter (fun p => p ≠ path)) := by
      simp [_removeApplication, applicationExists, hmem]
    rw [h1]
    intro hc
    have := (List.mem_filter.mp hc).2
    simp at this
  · have h1 : _removeApplication true db path = (false, db) := by
      simp [_removeApplication, applicationExists, hmem]
    rw [h1]
    exact hmem

/-- Claim C5: on a live `".desktop"` path whose `"can-open"` marker is
already present in the attribute store, `handleApplication` performs zero
cache writes. -/
theorem handleApplication_cached_no_write (supportsExtattr delOk : Bool)
    (fs : Fs) (db : List String) (path : String)
    (hlive : (fs.isDir (fs.canon path) || fs.isFile (fs.canon path)) = true)
    (hdesk : endsWithStr (fs.canon path) ".desktop" = true)
    (hattr : (fs.attr (fs.canon path)).isSome = true) :
    ((handleApplication supportsExtattr delOk fs db path).2.filter
      isAttrWrite).length = 0 := by
  cases supportsExtattr <;> simp [handleApplication, hlive, hattr]

/-- Claim C5 witness: a live cached `.desktop` path, with extended-attribute
support on, produces no cache-write event. -/
theorem handleApplication_cached_no_write_witness :
    ((fsMarkerCached.isDir (fsMarkerCached.canon "/a/c.desktop")
        || fsMarkerCached.isFile (fsMarkerCached.canon "/a/c.desktop")) = true ∧
      endsWithStr (fsMarkerCached.canon "/a/c.desktop") ".desktop" = true ∧
      (fsMarkerCached.attr (fsMarkerCached.canon "/a/c.desktop")).isSome = true) ∧
    ((handleApplication true true fsMarkerCached ["/x"] "/a/c.desktop").2.filter
      isAttrWrite).length = 0 :=
  ⟨⟨by decide, by decide, rfl⟩,
    handleApplication_cached_no_write true true fsMarkerCached ["/x"]
      "/a/c.desktop" (by decide) (by decide) rfl⟩

/-- Claim C6: on a path whose canonical form is neither a directory nor a
file, `handleApplication` leaves no registry row for the canonical path and
performs no capability resolution: no capability-source read and no
attribute-store write. -/
theorem handleApplication_dead_removes (supportsExtattr delOk : Bool)
    (fs : Fs) (db : List String) (path : String)
    (hdead : (fs.isDir (fs.canon path) || fs.isFile (fs.canon path)) = false)
    (hdel : delOk = true) :
    fs.canon path ∉ (handleApplication supportsExtattr delOk fs db path).1 ∧
    (handleApplication supportsExtattr delOk fs db path).2.filter isCapRead = [] ∧
    (handleApplication supportsExtattr delOk fs db path).2.filter isAttrWrite = [] := by
  subst hdel
  have hres : handleApplication supportsExtattr true fs db path
      = ((_removeApplication true db (fs.canon path)).2, []) := by
    simp [handleApplication, hdead]
  rw [hres]
  exact ⟨removeApplication_not_mem db (fs.canon path), rfl, rfl⟩

/-- Collaborator state on which no path exists: every path is dead. -/
def fsDead : Fs where
  canon := fun s => s
  isDir := fun _ => false
  isFile := fun _ => false
  contents := fun _ => none
  attr := fun _ => none

/-- Claim C6 witness: a registered path that no longer exists on disk is
removed, with no capability-source read and no attribute write. -/
theorem handleApplication_dead_removes_witness :
    ((fsDead.isDir (fsDead.canon "/gone.desktop")
        || fsDead.isFile (fsDead.canon "/gone.desktop")) = false ∧
      (true : Bool) = true) ∧
    (fsDead.canon "/gone.desktop"
        ∉ (handleApplication true true fsDead ["/gone.desktop", "/other"]
            "/gone.desktop").1 ∧
      (handleApplication true true fsDead ["/gone.desktop", "/other"]
          "/gone.desktop").2.filter isCapRead = [] ∧
      (handleApplication true true fsDead ["/gone.desktop", "/other"]
          "/gone.desktop").2.filter isAttrWrite = []) :=
  ⟨⟨by decide, rfl⟩,
    handleApplication_dead_removes true true fsDead ["/gone.desktop", "/other"]
      "/gone.desktop" (by decide) rfl⟩

/-- Inserting preserves the no-duplicate invariant. -/
theorem addApplication_nodup (db : List String) (path : String)
    (h : db.Nodup) : ((_addApplication db path).2).Nodup := by
  unfold _addApplication
  split
  · exact h
  · split
    · exact h
    · rename_i h1 h2
      simp [List.nodup_append, h, h2]

/-- Removing preserves the no-duplicate invariant. -/
theorem removeApplication_nodup (delOk : Bool) (db : List String)
    (path : String) (h : db.Nodup) :
    ((_removeApplication delOk db path).2).Nodup := by
  unfold _removeApplication
  split
  · split
    · exact h.filter _
    · exact h
  · exact h

/-- `handleApplication` preserves the no-duplicate invariant. -/
theorem handleApplication_nodup (supportsExtattr delOk : Bool) (fs : Fs)
    (db : List String) (path : String) (h : db.Nodup) :
    ((handleApplication supportsExtattr delOk fs db path).1).Nodup := by
  simp only [handleApplication]
  split
  · exact removeApplication_nodup _ _ _ h
  · split
    · exact addApplication_nodup _ _ h
    · split
      · exact addApplication_nodup _ _ h
      · split
        · exact addApplication_nodup _ _ h
        · exact addApplication_nodup _ _ h

/-- Claim C7: starting from a duplicate-free store, every operation — add,
remove, remove-all and the full `handleApplication` flow — leaves the
`applications` table free of duplicate paths (lookups do not modify the
store in this model). -/
theorem registry_paths_unique (db : List String) (path rawPath : String)
    (supportsExtattr delOk : Bool) (fs : Fs) (h : db.Nodup) :
    ((_addApplication db path).2).Nodup ∧
    ((_removeApplication delOk db path).2).Nodup ∧
    ((removeAllApplications db).2).Nodup ∧
    ((handleApplication supportsExtattr delOk fs db rawPath).1).Nodup :=
  ⟨addApplication_nodup db path h, removeApplication_nodup delOk db path h,
    List.nodup_nil, handleApplication_nodup supportsExtattr delOk fs db rawPath h⟩

/-- Claim C7 witness. -/
theorem registry_paths_unique_witness :
    (["/a/p", "/a/q"] : List String).Nodup ∧
    (((_addApplication ["/a/p", "/a/q"] "/a/r").2).Nodup ∧
      ((_removeApplication true ["/a/p", "/a/q"] "/a/r").2).Nodup ∧
      ((removeAllApplications ["/a/p", "/a/q"]).2).Nodup ∧
      ((handleApplication true true fsDead ["/a/p", "/a/q"] "/a/p").1).Nodup) :=
  ⟨by decide,
    registry_paths_unique ["/a/p", "/a/q"] "/a/r" "/a/p" true true fsDead
      (by decide)⟩
